import Mathlib

/-!
Verification of the `createProject` conversation flow of the gmonlink bot
(`src/lib/conversations/create-project.ts`).

The flow is embedded shallowly:
* the JavaScript regular-expression search performed by `extractUsernameFromUrl`
  is modelled as an explicit leftmost backtracking matcher over character lists;
* the effectful flow `createProject` becomes a pure function from an `Env`
  (the user's answers and the results of every external call: Telegram file
  API, HTTP fetch, storage upload, database insert) to an `Outcome` recording
  the replies sent, the edits applied to the status message, the upload call
  issued, the insert attempts with their payloads, and the final values of the
  process-wide `projectRecord` / `activeProjectRecord` maps for the user;
* a JavaScript `TypeError` (property access on `undefined`) is modelled as the
  `ExitKind.crash` outcome, a thrown `Error` after a failed insert as
  `ExitKind.fatal`, and an early `return` as `ExitKind.earlyReturn`.
-/

namespace GmonLink

/-- The two social platforms handled by the flow. -/
inductive Platform where
  | twitter
  | github
deriving DecidableEq, Repr

/-- The character class of the capture group of the platform regex:
`[a-zA-Z0-9_]` for Twitter, `[a-zA-Z0-9_-]` for GitHub. -/
def isHandleChar : Platform → Char → Bool
  | .twitter, c => c.isAlpha || c.isDigit || c == '_'
  | .github, c => c.isAlpha || c.isDigit || c == '_' || c == '-'

/-- Characters of the literal `https://`. -/
def httpsChars : List Char := ['h', 't', 't', 'p', 's', ':', '/', '/']

/-- Characters of the literal `http://`. -/
def httpChars : List Char := ['h', 't', 't', 'p', ':', '/', '/']

/-- Characters of the literal `www.`. -/
def wwwChars : List Char := ['w', 'w', 'w', '.']

/-- Characters of the platform domain literal, `twitter.com/` or `github.com/`. -/
def domainChars : Platform → List Char
  | .twitter => ['t', 'w', 'i', 't', 't', 'e', 'r', '.', 'c', 'o', 'm', '/']
  | .github => ['g', 'i', 't', 'h', 'u', 'b', '.', 'c', 'o', 'm', '/']

/-- Case-insensitive literal match (the regexes carry the `i` flag): consume
`lit` from the front of `s`, returning the rest on success. -/
def matchLitCI : List Char → List Char → Option (List Char)
  | [], s => some s
  | _ :: _, [] => none
  | l :: ls, c :: cs => if l.toLower == c.toLower then matchLitCI ls cs else none

/-- Match `twitter.com/([a-zA-Z0-9_]+)` (resp. the GitHub variant) at the
front of `s`, returning the greedy capture of the group. -/
def matchDomainHandle (p : Platform) (s : List Char) : Option (List Char) :=
  match matchLitCI (domainChars p) s with
  | none => none
  | some rest =>
    let h := rest.takeWhile (isHandleChar p)
    if h.isEmpty then none else some h

/-- Match `(?:www\.)?` followed by the domain and the handle: the greedy
alternative consuming `www.` is tried first, then the empty one. -/
def matchWwwDomainHandle (p : Platform) (s : List Char) : Option (List Char) :=
  (match matchLitCI wwwChars s with
   | some rest => matchDomainHandle p rest
   | none => none).orElse fun _ => matchDomainHandle p s

/-- Match the whole pattern `(?:https?:\/\/)?(?:www\.)?domain/handle` at the
front of `s`; the `https://` alternative is tried before `http://`, and both
before the empty protocol, matching the greedy `s?` and `(?:...)?`. -/
def matchFull (p : Platform) (s : List Char) : Option (List Char) :=
  (match matchLitCI httpsChars s with
   | some rest => matchWwwDomainHandle p rest
   | none => none).orElse fun _ =>
  (match matchLitCI httpChars s with
   | some rest => matchWwwDomainHandle p rest
   | none => none).orElse fun _ =>
  matchWwwDomainHandle p s

/-- Leftmost search: try the pattern at every position, left to right, as
`String.prototype.match` does for an unanchored regex. -/
def searchHandle (p : Platform) : List Char → Option (List Char)
  | [] => none
  | c :: cs => (matchFull p (c :: cs)).orElse fun _ => searchHandle p cs

/-- `extractUsernameFromUrl` (lines 29-38): run the platform regex over the
url and return the first capture group of the first match, or `null`. -/
def extractUsernameFromUrl (url : String) (p : Platform) : Option String :=
  (searchHandle p url.toList).map String.mk

/-- `String.prototype.startsWith`: code-unit prefix test (our inputs are
compared against the ASCII literal `"http"`, so a code-point model agrees). -/
def leadingMatch : List Char → List Char → Bool
  | [], _ => true
  | _ :: _, [] => false
  | c :: cs, d :: ds => c == d && leadingMatch cs ds

/-- `input.startsWith(pre)` of JavaScript. -/
def jsStartsWith (s pre : String) : Bool :=
  leadingMatch pre.toList s.toList

/-- Result of one social-link step of the flow (lines 69-79 resp. 87-97):
either the flow goes on with an optional link, or it returns early because a
`http`-prefixed input did not match the platform pattern. -/
inductive LinkStep where
  | ok (link : Option String)
  | invalid
deriving DecidableEq, Repr

/-- The profile-URL base used when rebuilding the stored link. -/
def platformBase : Platform → String
  | .twitter => "https://twitter.com/"
  | .github => "https://github.com/"

/-- One social-link step: `id = input`; if the input starts with `http`,
`id` is re-extracted from the URL and a failed extraction aborts the flow;
finally the link is `https://{platform}.com/{id}` unless `id` is `"no"`. -/
def resolveLinkStep (p : Platform) (input : String) : LinkStep :=
  if jsStartsWith input "http" then
    match extractUsernameFromUrl input p with
    | none => .invalid
    | some id => .ok (if id = "no" then none else some (platformBase p ++ id))
  else
    .ok (if input = "no" then none else some (platformBase p ++ input))

/-- JavaScript `String.prototype.split(".")`: split at every dot, keeping
empty segments; the result is never the empty list. -/
def splitOnDot : List Char → List (List Char)
  | [] => [[]]
  | c :: cs =>
    if c == '.' then [] :: splitOnDot cs
    else
      match splitOnDot cs with
      | [] => [[c]]
      | p :: ps => (c :: p) :: ps

/-- `image.file_path.split(".").pop() || "jpg"` (line 125): the last
dot-separated segment of the path, or `"jpg"` when that segment is empty. -/
def fileExtension (path : String) : String :=
  let lastSeg := (splitOnDot path.toList).getLastD []
  if lastSeg.isEmpty then "jpg" else String.mk lastSeg

/-- `mime.lookup(fileExtension) || "image/jpeg"` (line 126), parameterised by
the extension-to-MIME table of the external `mime-types` library. -/
def contentType (lookup : String → Option String) (ext : String) : String :=
  (lookup ext).getD "image/jpeg"

/-- One `{title, url}` entry of the `links` column. -/
structure Link where
  title : String
  url : String
deriving DecidableEq, Repr

/-- The `links` array literal of the insert (lines 153-156): the Twitter
entry, when present, spread before the GitHub entry, when present. -/
def linksFrom (twitterLink githubLink : Option String) : List Link :=
  (match twitterLink with
   | some u => [⟨"Twitter", u⟩]
   | none => []) ++
  (match githubLink with
   | some u => [⟨"GitHub", u⟩]
   | none => [])

/-- The row returned by `.select("*").single()` after a successful insert;
only the generated `project_id` is read back by the flow. -/
structure Row where
  project_id : Nat
deriving DecidableEq, Repr

/-- The record handed to `supabase.from("projects").insert(...)` (line 152). -/
structure InsertPayload where
  user_id : Nat
  title : String
  description : String
  slug : String
  avatar_url : String
  links : List Link
deriving DecidableEq, Repr

/-- The arguments of the `supabase.storage...upload` call (lines 130-133). -/
structure UploadCall where
  fileName : String
  contentTy : String
  upsert : Bool
deriving DecidableEq, Repr

/-- What happened inside the `try { ... } catch` of the image intake
(lines 111-142): which upload call was issued (if the flow got that far),
the edits applied to the status message, the final value of `imageData`
(`none` when the try block threw), and whether the catch logged an error. -/
structure TryResult where
  uploadCall : Option UploadCall
  edits : List String
  imageData : Option String
  errorLogged : Bool
deriving Repr

/-- Everything the flow consumes: the user's answers and the outcome of each
external call, resolved ahead of time (the collaborators of the flow). -/
structure Env where
  userId : Nat
  username : String
  projectName : String
  projectDescription : String
  twitterInput : String
  githubInput : String
  /-- `message.photo`: the photo-size file ids, `none` when the message has
  no photo. -/
  photo : Option (List String)
  /-- `bot.api.getFile`: `.error` when the call throws, otherwise the
  (possibly absent) `file_path` of the returned file. -/
  getFile : Except Unit (Option String)
  /-- whether `fetch` + `arrayBuffer` on the Telegram file URL succeed. -/
  fetchOk : Bool
  /-- `createSlug(projectName, supabase)` (external collaborator). -/
  slug : String
  /-- extension-to-MIME table of the `mime-types` library. -/
  mimeLookup : String → Option String
  /-- storage upload result: `.error` or the `fullPath` of the stored object. -/
  upload : Except Unit String
  /-- insert result: `none` models `insertError || !data`, otherwise the row. -/
  insertRow : Option Row
  /-- `projectRecord[userId]` before the flow runs. -/
  initProjectRecord : Option Row
  /-- `activeProjectRecord[userId]` before the flow runs. -/
  initActiveProject : Option Nat

/-- How the flow terminated. -/
inductive ExitKind where
  | finished
  | earlyReturn
  /-- a `TypeError`: property access on `undefined` (`imageData.fullPath`). -/
  | crash
  /-- the `throw new Error(...)` after a failed insert. -/
  | fatal
deriving DecidableEq, Repr

/-- Observable outcome of one run of `createProject` for the acting user. -/
structure Outcome where
  exit : ExitKind
  /-- `ctx.reply` messages, in order. -/
  replies : List String
  /-- `editMessageText` edits applied to the `uploadingMessage`, in order. -/
  statusEdits : List String
  /-- payload of each `insert` call issued, in order. -/
  insertPayloads : List InsertPayload
  /-- the record persisted by a successful insert, if any. -/
  persisted : Option InsertPayload
  /-- `projectRecord[userId]` after the flow. -/
  projectRecord : Option Row
  /-- `activeProjectRecord[userId]` after the flow. -/
  activeProjectRecord : Option Nat
  /-- `isInConversationRecord[userId]` after the flow. -/
  inConversation : Bool
  uploadCall : Option UploadCall
  /-- messages sent to the alerts channel. -/
  channelMsgs : List String
  /-- whether `console.error` ran in the catch handler. -/
  errorLogged : Bool
deriving Repr

def prompt1 : String :=
  "<code>[1/3]</code>\nSure! Let's create a new project. What's the name of the project or person you're creating a gmon.link for?"

def prompt2 (name : String) : String :=
  "<code>[2/3]</code>\nGreat! <code>" ++ name ++ "</code> it is. Now, let's write a short description for the project."

def prompt3 : String :=
  "<code>[3/3]</code>\nDo you have a Twitter handle or a Twitter URL? Please provide it. Type \"no\" if you don't want to add it."

def prompt4 : String :=
  "<code>[4/3]</code>\nDo you have a GitHub ID or GitHub URL? Please provide it. Type \"no\" to skip."

def prompt5 : String :=
  "<code>[5/3]</code>\nFab! Let's add an image for the project. Send a photo or an image of the project."

def twitterInvalidReply : String :=
  "⚠️ The provided Twitter URL is invalid. Please try again or type 'no'."

def githubInvalidReply : String :=
  "⚠️ The provided GitHub URL is invalid. Please try again or type 'no'."

def invalidImageReply : String := "Please provide a valid image."

def uploadingReply : String := "⏳ We're uploading your image..."

def uploadSuccessEdit : String := "✅ Image uploaded successfully!"

def uploadErrorEdit : String := "❌ Sorry, there was an error uploading your image."

def celebrateEdit : String := "🎉 Image uploaded successfully!"

def creatingEdit : String := "⏳ We're creating your project..."

def insertErrorReply : String :=
  "An error occurred while creating the project. Please try again."

def finalEdit (slug : String) : String :=
  "🎉 <b>Project created successfully!</b> Here's the link to the project: <a href=\"gmon.link/" ++ slug ++ "\">gmon.link/" ++ slug ++ "</a>"

def channelMsg (username slug : String) : String :=
  username ++ " created a new project. <a href=\"gmon.link/" ++ slug ++ "\">gmon.link/" ++ slug ++ "</a>"

/-- The `try { ... } catch (error) { ... }` of the image intake, lines
111-142, in source order: take the last photo size (indexing an empty array
gives `undefined` and `.file_id` throws, caught below), call `getFile`,
fetch the binary, then check `file_path` (line 123; `undefined` and the
empty string are both falsy), derive extension / MIME type / filename, and
upload. Any throw lands in the catch, which logs and edits the status
message to the error text; success edits it to the success text. -/
def tryUpload (env : Env) (sizes : List String) : TryResult :=
  match sizes.getLast? with
  | none => ⟨none, [uploadErrorEdit], none, true⟩
  | some _imageId =>
    match env.getFile with
    | .error _ => ⟨none, [uploadErrorEdit], none, true⟩
    | .ok filePath? =>
      if !env.fetchOk then ⟨none, [uploadErrorEdit], none, true⟩
      else
        match filePath? with
        | none => ⟨none, [uploadErrorEdit], none, true⟩
        | some fp =>
          if fp = "" then ⟨none, [uploadErrorEdit], none, true⟩
          else
            let ext := fileExtension fp
            let call : UploadCall :=
              ⟨env.slug ++ "." ++ ext, contentType env.mimeLookup ext, true⟩
            match env.upload with
            | .error _ => ⟨some call, [uploadErrorEdit], none, true⟩
            | .ok fullPath => ⟨some call, [uploadSuccessEdit], some fullPath, false⟩

/-- `createProject`, lines 40-178, as a pure function of the resolved
environment. The three numbered text prompts and the GitHub/image prompts
are sent in order; the Twitter and GitHub steps may return early; the image
step returns early without a photo; after the try/catch the status message
is unconditionally edited to `celebrateEdit` (line 144) and `imageData` is
dereferenced (line 146) — a crash when the try block threw; the insert
either fails (reply + thrown error) or succeeds (maps updated, final edit,
channel alert). `sendTipMessage` and `getUser` are external collaborators
whose messages are not part of this record. -/
def runCreateProject (env : Env) : Outcome :=
  match resolveLinkStep .twitter env.twitterInput with
  | .invalid =>
    { exit := .earlyReturn
      replies := [prompt1, prompt2 env.projectName, prompt3, twitterInvalidReply]
      statusEdits := [], insertPayloads := [], persisted := none
      projectRecord := env.initProjectRecord
      activeProjectRecord := env.initActiveProject
      inConversation := true, uploadCall := none, channelMsgs := []
      errorLogged := false }
  | .ok twitterLink =>
    match resolveLinkStep .github env.githubInput with
    | .invalid =>
      { exit := .earlyReturn
        replies := [prompt1, prompt2 env.projectName, prompt3, prompt4,
                    githubInvalidReply]
        statusEdits := [], insertPayloads := [], persisted := none
        projectRecord := env.initProjectRecord
        activeProjectRecord := env.initActiveProject
        inConversation := true, uploadCall := none, channelMsgs := []
        errorLogged := false }
    | .ok githubLink =>
      match env.photo with
      | none =>
        { exit := .earlyReturn
          replies := [prompt1, prompt2 env.projectName, prompt3, prompt4,
                      prompt5, invalidImageReply]
          statusEdits := [], insertPayloads := [], persisted := none
          projectRecord := env.initProjectRecord
          activeProjectRecord := env.initActiveProject
          inConversation := true, uploadCall := none, channelMsgs := []
          errorLogged := false }
      | some sizes =>
        let r := tryUpload env sizes
        match r.imageData with
        | none =>
          { exit := .crash
            replies := [prompt1, prompt2 env.projectName, prompt3, prompt4,
                        prompt5, uploadingReply]
            statusEdits := r.edits ++ [celebrateEdit]
            insertPayloads := [], persisted := none
            projectRecord := env.initProjectRecord
            activeProjectRecord := env.initActiveProject
            inConversation := true, uploadCall := r.uploadCall
            channelMsgs := [], errorLogged := r.errorLogged }
        | some imageUrl =>
          let payload : InsertPayload :=
            { user_id := env.userId, title := env.projectName
              description := env.projectDescription, slug := env.slug
              avatar_url := imageUrl
              links := linksFrom twitterLink githubLink }
          match env.insertRow with
          | none =>
            { exit := .fatal
              replies := [prompt1, prompt2 env.projectName, prompt3, prompt4,
                          prompt5, uploadingReply, insertErrorReply]
              statusEdits := r.edits ++ [celebrateEdit, creatingEdit]
              insertPayloads := [payload], persisted := none
              projectRecord := env.initProjectRecord
              activeProjectRecord := env.initActiveProject
              inConversation := true, uploadCall := r.uploadCall
              channelMsgs := [], errorLogged := r.errorLogged }
          | some row =>
            { exit := .finished
              replies := [prompt1, prompt2 env.projectName, prompt3, prompt4,
                          prompt5, uploadingReply]
              statusEdits := r.edits ++ [celebrateEdit, creatingEdit,
                                         finalEdit env.slug]
              insertPayloads := [payload], persisted := some payload
              projectRecord := some row
              activeProjectRecord := some row.project_id
              inConversation := true, uploadCall := r.uploadCall
              channelMsgs := [channelMsg env.username env.slug]
              errorLogged := r.errorLogged }

/-! ## Helper lemmas -/

theorem toList_mk (l : List Char) : (String.mk l).toList = l := rfl

theorem matchLitCI_self (l s : List Char) : matchLitCI l (l ++ s) = some s := by
  induction l with
  | nil => rfl
  | cons c cs ih => simp [matchLitCI, ih]

theorem splitOnDot_ne_nil (l : List Char) : splitOnDot l ≠ [] := by
  cases l with
  | nil => simp [splitOnDot]
  | cons c cs =>
    rcases hs : splitOnDot cs with _ | ⟨p, ps⟩ <;>
      simp [splitOnDot, hs] <;> split <;> simp

theorem splitOnDot_no_dot : ∀ {l : List Char}, '.' ∉ l → splitOnDot l = [l]
  | [], _ => rfl
  | c :: cs, h => by
    have h1 : ¬((c == '.') = true) := by
      simp only [beq_iff_eq]
      intro hc
      exact h (hc ▸ List.mem_cons_self c cs)
    have h2 : '.' ∉ cs := fun hc => h (List.mem_cons_of_mem _ hc)
    simp [splitOnDot, h1, splitOnDot_no_dot h2]

theorem splitOnDot_two_le : ∀ {l : List Char}, '.' ∈ l → 2 ≤ (splitOnDot l).length
  | c :: cs, h => by
    by_cases hc : c = '.'
    · subst hc
      have := splitOnDot_ne_nil cs
      have hpos : 0 < (splitOnDot cs).length := List.length_pos.mpr this
      simp only [splitOnDot, beq_self_eq_true, if_true, List.length_cons]
      omega
    · have hcs : '.' ∈ cs := by
        rcases List.mem_cons.mp h with h' | h'
        · exact absurd h'.symm hc
        · exact h'
      have ih := splitOnDot_two_le hcs
      rcases hs : splitOnDot cs with _ | ⟨p, ps⟩
      · exact absurd hs (splitOnDot_ne_nil cs)
      · have hbc : ¬((c == '.') = true) := by simp [hc]
        rw [hs] at ih
        simp only [splitOnDot, hs, if_neg hbc, List.length_cons] at *
        omega

theorem getLast?_cons_of_ne_nil {α : Type} (x : α) {xs : List α} (h : xs ≠ []) :
    (x :: xs).getLast? = xs.getLast? := by
  cases xs with
  | nil => exact absurd rfl h
  | cons y ys => exact List.getLast?_cons_cons

theorem splitOnDot_append_dot (a b : List Char) :
    (splitOnDot (a ++ '.' :: b)).getLast? = (splitOnDot b).getLast? := by
  induction a with
  | nil =>
    rw [List.nil_append]
    have : splitOnDot ('.' :: b) = [] :: splitOnDot b := by
      simp [splitOnDot]
    rw [this, getLast?_cons_of_ne_nil _ (splitOnDot_ne_nil b)]
  | cons c a ih =>
    by_cases hc : c = '.'
    · subst hc
      have : splitOnDot ('.' :: (a ++ '.' :: b)) = [] :: splitOnDot (a ++ '.' :: b) := by
        simp [splitOnDot]
      rw [List.cons_append, this,
        getLast?_cons_of_ne_nil _ (splitOnDot_ne_nil _), ih]
    · rcases hs : splitOnDot (a ++ '.' :: b) with _ | ⟨p, ps⟩
      · exact absurd hs (splitOnDot_ne_nil _)
      · have hps : ps ≠ [] := by
          have h2 := splitOnDot_two_le (l := a ++ '.' :: b) (by simp)
          rw [hs] at h2
          cases ps with
          | nil => simp at h2
          | cons q qs => simp
        have hbc : ¬((c == '.') = true) := by simp [hc]
        have : splitOnDot (c :: (a ++ '.' :: b)) = (c :: p) :: ps := by
          simp [splitOnDot, hbc, hs]
        rw [List.cons_append, this, getLast?_cons_of_ne_nil _ hps, ← ih, hs,
          getLast?_cons_of_ne_nil _ hps]

theorem fileExtension_after_last_dot (a b : List Char) (hb : '.' ∉ b) (hne : b ≠ []) :
    fileExtension (String.mk (a ++ '.' :: b)) = String.mk b := by
  unfold fileExtension
  rw [toList_mk, List.getLastD_eq_getLast?, splitOnDot_append_dot,
    splitOnDot_no_dot hb]
  simp [hne]

theorem fileExtension_no_dot (l : List Char) (hd : '.' ∉ l) (hne : l ≠ []) :
    fileExtension (String.mk l) = String.mk l := by
  unfold fileExtension
  rw [toList_mk, List.getLastD_eq_getLast?, splitOnDot_no_dot hd]
  simp [hne]

theorem fileExtension_trailing_dot (a : List Char) :
    fileExtension (String.mk (a ++ ['.'])) = "jpg" := by
  unfold fileExtension
  rw [toList_mk, List.getLastD_eq_getLast?, splitOnDot_append_dot]
  simp [splitOnDot]

theorem matchDomainHandle_exact (p : Platform) (handle : List Char)
    (hne : handle ≠ []) (hchars : ∀ c ∈ handle, isHandleChar p c = true) :
    matchDomainHandle p (domainChars p ++ handle) = some handle := by
  simp only [matchDomainHandle, matchLitCI_self,
    List.takeWhile_eq_self_iff.mpr hchars]
  simp [hne]

theorem matchWwwDomainHandle_exact (p : Platform) (www handle : List Char)
    (hw : www = wwwChars ∨ www = [])
    (hne : handle ≠ []) (hchars : ∀ c ∈ handle, isHandleChar p c = true) :
    matchWwwDomainHandle p (www ++ (domainChars p ++ handle)) = some handle := by
  have hd := matchDomainHandle_exact p handle hne hchars
  rcases hw with rfl | rfl
  · simp [matchWwwDomainHandle, matchLitCI_self, hd, Option.orElse]
  · have hwww : matchLitCI wwwChars (domainChars p ++ handle) = none := by
      cases p <;> rfl
    simp [matchWwwDomainHandle, hwww, hd, Option.orElse]

theorem matchFull_exact (p : Platform) (proto www handle : List Char)
    (hp : proto = httpsChars ∨ proto = httpChars ∨ proto = [])
    (hw : www = wwwChars ∨ www = [])
    (hne : handle ≠ []) (hchars : ∀ c ∈ handle, isHandleChar p c = true) :
    matchFull p (proto ++ (www ++ (domainChars p ++ handle))) = some handle := by
  have hwd := matchWwwDomainHandle_exact p www handle hw hne hchars
  rcases hp with rfl | rfl | rfl
  · simp [matchFull, matchLitCI_self, hwd, Option.orElse]
  · have h1 : matchLitCI httpsChars
        (httpChars ++ (www ++ (domainChars p ++ handle))) = none := rfl
    simp [matchFull, h1, matchLitCI_self, hwd, Option.orElse]
  · have h1 : matchLitCI httpsChars (www ++ (domainChars p ++ handle)) = none := by
      rcases hw with rfl | rfl
      · rfl
      · cases p <;> rfl
    have h2 : matchLitCI httpChars (www ++ (domainChars p ++ handle)) = none := by
      rcases hw with rfl | rfl
      · rfl
      · cases p <;> rfl
    simp [matchFull, h1, h2, hwd, Option.orElse]

theorem searchHandle_of_matchFull {p : Platform} {l handle : List Char}
    (hne : l ≠ []) (hm : matchFull p l = some handle) :
    searchHandle p l = some handle := by
  cases l with
  | nil => exact absurd rfl hne
  | cons c cs =>
    unfold searchHandle
    rw [hm]
    rfl

theorem extractUsernameFromUrl_exact (p : Platform) (proto www handle : List Char)
    (hp : proto = httpsChars ∨ proto = httpChars ∨ proto = [])
    (hw : www = wwwChars ∨ www = [])
    (hne : handle ≠ []) (hchars : ∀ c ∈ handle, isHandleChar p c = true) :
    extractUsernameFromUrl (String.mk (proto ++ (www ++ (domainChars p ++ handle)))) p
      = some (String.mk handle) := by
  have hfull := matchFull_exact p proto www handle hp hw hne hchars
  have hnil : proto ++ (www ++ (domainChars p ++ handle)) ≠ [] := by
    intro h
    rcases List.append_eq_nil.mp h with ⟨h1, h2⟩
    rcases List.append_eq_nil.mp h2 with ⟨h3, h4⟩
    have hdom : domainChars p ≠ [] := by cases p <;> simp [domainChars]
    exact hdom (List.append_eq_nil.mp h4).1
  unfold extractUsernameFromUrl
  rw [toList_mk, searchHandle_of_matchFull hnil hfull]
  rfl

theorem linksFrom_titles_sublist (tl gl : Option String) :
    List.Sublist ((linksFrom tl gl).map Link.title) ["Twitter", "GitHub"] := by
  cases tl <;> cases gl <;> simp [linksFrom]

/-- Every payload handed to the insert call carries the links assembled from
the two link steps, both of which must have succeeded. -/
theorem insertPayload_shape (env : Env) (payload : InsertPayload)
    (hmem : payload ∈ (runCreateProject env).insertPayloads) :
    ∃ tl gl imageUrl,
      resolveLinkStep .twitter env.twitterInput = .ok tl ∧
      resolveLinkStep .github env.githubInput = .ok gl ∧
      payload =
        { user_id := env.userId, title := env.projectName
          description := env.projectDescription, slug := env.slug
          avatar_url := imageUrl, links := linksFrom tl gl } := by
  unfold runCreateProject at hmem
  rcases h1 : resolveLinkStep .twitter env.twitterInput with tl | _ <;>
    rw [h1] at hmem
  case invalid => simp at hmem
  rcases h2 : resolveLinkStep .github env.githubInput with gl | _ <;>
    rw [h2] at hmem
  case invalid => simp at hmem
  rcases h3 : env.photo with _ | sizes <;> rw [h3] at hmem
  case none => simp at hmem
  simp only at hmem
  rcases h4 : (tryUpload env sizes).imageData with _ | imageUrl <;>
    rw [h4] at hmem
  case none => simp at hmem
  rcases h5 : env.insertRow with _ | row <;> rw [h5] at hmem <;>
    simp only [List.mem_singleton] at hmem <;>
    exact ⟨tl, gl, imageUrl, rfl, rfl, hmem⟩

theorem resolveLinkStep_invalid_iff (p : Platform) (input : String) :
    resolveLinkStep p input = .invalid ↔
      (jsStartsWith input "http" = true ∧
        extractUsernameFromUrl input p = none) := by
  unfold resolveLinkStep
  by_cases h : jsStartsWith input "http" = true
  · rcases he : extractUsernameFromUrl input p with _ | id <;> simp [h, he]
  · simp [h]

/-- When the try block threw (`imageData` stays unset), the catch handler
logged the error and left exactly the error edit on the status message. -/
theorem tryUpload_failed (env : Env) (sizes : List String)
    (h : (tryUpload env sizes).imageData = none) :
    (tryUpload env sizes).edits = [uploadErrorEdit] ∧
    (tryUpload env sizes).errorLogged = true := by
  unfold tryUpload at h ⊢
  rcases hs : sizes.getLast? with _ | id
  · exact ⟨rfl, rfl⟩
  rcases hg : env.getFile with u | fp?
  · exact ⟨rfl, rfl⟩
  rcases hb : env.fetchOk with _ | _
  · exact ⟨rfl, rfl⟩
  rcases hfp : fp? with _ | fp
  · exact ⟨rfl, rfl⟩
  by_cases hemp : fp = ""
  · subst hemp
    exact ⟨rfl, rfl⟩
  · rcases hu : env.upload with u | fullPath
    · constructor <;> simp [hemp]
    · simp [hs, hg, hb, hfp, hu, hemp] at h

/-- When the try block reached the upload, the issued call carried the
filename `{slug}.{extension}` and the looked-up content type, with
`upsert` on — whether or not the upload then succeeded. -/
theorem tryUpload_call (env : Env) (sizes : List String) (imageId fp : String)
    (hid : sizes.getLast? = some imageId)
    (hg : env.getFile = .ok (some fp))
    (hfetch : env.fetchOk = true) (hfp : fp ≠ "") :
    (tryUpload env sizes).uploadCall
      = some ⟨env.slug ++ "." ++ fileExtension fp,
              contentType env.mimeLookup (fileExtension fp), true⟩ := by
  unfold tryUpload
  rw [hid, hg, hfetch]
  rcases hu : env.upload with u | fullPath <;> simp [hfp]

/-- Past the photo step, the outcome's recorded upload call is the one the
try block issued, on every continuation of the flow. -/
theorem runCreateProject_uploadCall (env : Env) (sizes : List String)
    (tl gl : Option String)
    (h1 : resolveLinkStep .twitter env.twitterInput = .ok tl)
    (h2 : resolveLinkStep .github env.githubInput = .ok gl)
    (h3 : env.photo = some sizes) :
    (runCreateProject env).uploadCall = (tryUpload env sizes).uploadCall := by
  rcases h4 : (tryUpload env sizes).imageData with _ | imageUrl
  · simp only [runCreateProject, h1, h2, h3, h4]
  · rcases h5 : env.insertRow with _ | row <;>
      simp only [runCreateProject, h1, h2, h3, h4, h5]

/-- A small extension-to-MIME table standing in for the `mime-types`
library in concrete runs. -/
def mimeLookupStd : String → Option String := fun e =>
  if e = "jpg" then some "image/jpeg"
  else if e = "jpeg" then some "image/jpeg"
  else if e = "png" then some "image/png"
  else if e = "gif" then some "image/gif"
  else if e = "webp" then some "image/webp"
  else none

/-- A fully successful concrete run: skip Twitter, bare GitHub handle,
photo provided, every external call succeeds. -/
def envOk : Env :=
  { userId := 7, username := "alice", projectName := "Acme"
    projectDescription := "A widget maker", twitterInput := "no"
    githubInput := "acme-oss", photo := some ["small", "large"]
    getFile := .ok (some "photos/file_1.jpg"), fetchOk := true, slug := "acme"
    mimeLookup := mimeLookupStd, upload := .ok "gmon.link/acme.jpg"
    insertRow := some ⟨42⟩, initProjectRecord := none
    initActiveProject := none }

/-! ## Claim theorems -/

/-- Claim C5: for every Twitter or GitHub input that starts with `http` but
from which the platform pattern extracts no handle, the flow reports the
invalid-URL error and terminates at once: no insert is attempted, nothing is
persisted, and neither `projectRecord` nor `activeProjectRecord` changes. -/
theorem invalidUrl_aborts_flow (env : Env)
    (h : (jsStartsWith env.twitterInput "http" = true ∧
            extractUsernameFromUrl env.twitterInput .twitter = none) ∨
         (jsStartsWith env.githubInput "http" = true ∧
            extractUsernameFromUrl env.githubInput .github = none)) :
    (runCreateProject env).exit = .earlyReturn ∧
    (twitterInvalidReply ∈ (runCreateProject env).replies ∨
      githubInvalidReply ∈ (runCreateProject env).replies) ∧
    (runCreateProject env).insertPayloads = [] ∧
    (runCreateProject env).persisted = none ∧
    (runCreateProject env).projectRecord = env.initProjectRecord ∧
    (runCreateProject env).activeProjectRecord = env.initActiveProject := by
  rcases h with h | h
  · have h1 : resolveLinkStep .twitter env.twitterInput = .invalid :=
      (resolveLinkStep_invalid_iff _ _).mpr h
    simp [runCreateProject, h1]
  · rcases h1 : resolveLinkStep .twitter env.twitterInput with tl | _
    · have h2 : resolveLinkStep .github env.githubInput = .invalid :=
        (resolveLinkStep_invalid_iff _ _).mpr h
      simp [runCreateProject, h1, h2]
    · simp [runCreateProject, h1]

/-- Claim C5 witness: a Twitter URL that matches no platform pattern aborts
the concrete run without insert or map mutation. -/
theorem invalidUrl_aborts_flow_witness :
    (jsStartsWith "https://example.com/x" "http" = true ∧
      extractUsernameFromUrl "https://example.com/x" .twitter = none) ∧
    ((runCreateProject { envOk with twitterInput := "https://example.com/x" }).exit
        = .earlyReturn ∧
      (twitterInvalidReply ∈ (runCreateProject
          { envOk with twitterInput := "https://example.com/x" }).replies ∨
        githubInvalidReply ∈ (runCreateProject
          { envOk with twitterInput := "https://example.com/x" }).replies) ∧
      (runCreateProject
          { envOk with twitterInput := "https://example.com/x" }).insertPayloads
        = [] ∧
      (runCreateProject
          { envOk with twitterInput := "https://example.com/x" }).persisted
        = none ∧
      (runCreateProject
          { envOk with twitterInput := "https://example.com/x" }).projectRecord
        = { envOk with twitterInput := "https://example.com/x" }.initProjectRecord ∧
      (runCreateProject
          { envOk with twitterInput := "https://example.com/x" }).activeProjectRecord
        = { envOk with twitterInput := "https://example.com/x" }.initActiveProject) :=
  ⟨⟨by decide, by decide⟩,
    invalidUrl_aborts_flow { envOk with twitterInput := "https://example.com/x" }
      (Or.inl ⟨by decide, by decide⟩)⟩

/-- Claim C6: when the Twitter or GitHub answer is the literal `"no"`, every
payload handed to the insert omits that platform from its links, and the
link titles always form a subsequence of `[Twitter, GitHub]`, keeping
Twitter before GitHub. -/
theorem skip_no_omits_platform (env : Env) (payload : InsertPayload)
    (hmem : payload ∈ (runCreateProject env).insertPayloads) :
    (env.twitterInput = "no" → ∀ l ∈ payload.links, l.title ≠ "Twitter") ∧
    (env.githubInput = "no" → ∀ l ∈ payload.links, l.title ≠ "GitHub") ∧
    List.Sublist (payload.links.map Link.title) ["Twitter", "GitHub"] := by
  obtain ⟨tl, gl, imageUrl, h1, h2, hpay⟩ := insertPayload_shape env payload hmem
  subst hpay
  refine ⟨?_, ?_, linksFrom_titles_sublist tl gl⟩
  · intro hno l hl
    rw [hno] at h1
    have hok : LinkStep.ok (none : Option String) = LinkStep.ok tl := by
      rw [← h1]; rfl
    have htl : tl = none := (LinkStep.ok.injEq _ _).mp hok |>.symm
    subst htl
    rcases gl with _ | u <;> simp [linksFrom] at hl <;> simp [hl]
  · intro hno l hl
    rw [hno] at h2
    have hok : LinkStep.ok (none : Option String) = LinkStep.ok gl := by
      rw [← h2]; rfl
    have hgl : gl = none := (LinkStep.ok.injEq _ _).mp hok |>.symm
    subst hgl
    rcases tl with _ | u <;> simp [linksFrom] at hl <;> simp [hl]

/-- Claim C6 witness: in the successful concrete run with Twitter skipped,
the persisted payload's links hold only the GitHub entry. -/
theorem skip_no_omits_platform_witness :
    ({ user_id := 7, title := "Acme", description := "A widget maker"
       slug := "acme", avatar_url := "gmon.link/acme.jpg"
       links := [⟨"GitHub", "https://github.com/acme-oss"⟩] } : InsertPayload)
      ∈ (runCreateProject envOk).insertPayloads ∧
    (∀ l ∈ ({ user_id := 7, title := "Acme", description := "A widget maker"
              slug := "acme", avatar_url := "gmon.link/acme.jpg"
              links := [⟨"GitHub", "https://github.com/acme-oss"⟩] }
            : InsertPayload).links, l.title ≠ "Twitter") :=
  ⟨by decide,
    (skip_no_omits_platform envOk _ (by decide)).1 rfl⟩

/-- Claim C7: a social input that does not start with `http` and is not the
literal `"no"` is used verbatim as the handle: the step stores the link
`https://{platform}.com/{raw input}`, and every insert payload carries that
link entry. -/
theorem bare_handle_link (env : Env) :
    (jsStartsWith env.twitterInput "http" = false → env.twitterInput ≠ "no" →
      resolveLinkStep .twitter env.twitterInput
        = .ok (some ("https://twitter.com/" ++ env.twitterInput)) ∧
      ∀ payload ∈ (runCreateProject env).insertPayloads,
        Link.mk "Twitter" ("https://twitter.com/" ++ env.twitterInput)
          ∈ payload.links) ∧
    (jsStartsWith env.githubInput "http" = false → env.githubInput ≠ "no" →
      resolveLinkStep .github env.githubInput
        = .ok (some ("https://github.com/" ++ env.githubInput)) ∧
      ∀ payload ∈ (runCreateProject env).insertPayloads,
        Link.mk "GitHub" ("https://github.com/" ++ env.githubInput)
          ∈ payload.links) := by
  constructor
  · intro hh hno
    have hstep : resolveLinkStep .twitter env.twitterInput
        = .ok (some ("https://twitter.com/" ++ env.twitterInput)) := by
      unfold resolveLinkStep
      simp [hh, hno, platformBase]
    refine ⟨hstep, ?_⟩
    intro payload hmem
    obtain ⟨tl, gl, imageUrl, h1, h2, hpay⟩ := insertPayload_shape env payload hmem
    rw [hstep] at h1
    have htl : some ("https://twitter.com/" ++ env.twitterInput) = tl :=
      (LinkStep.ok.injEq _ _).mp h1
    subst hpay
    rw [← htl]
    simp [linksFrom]
  · intro hh hno
    have hstep : resolveLinkStep .github env.githubInput
        = .ok (some ("https://github.com/" ++ env.githubInput)) := by
      unfold resolveLinkStep
      simp [hh, hno, platformBase]
    refine ⟨hstep, ?_⟩
    intro payload hmem
    obtain ⟨tl, gl, imageUrl, h1, h2, hpay⟩ := insertPayload_shape env payload hmem
    rw [hstep] at h2
    have hgl : some ("https://github.com/" ++ env.githubInput) = gl :=
      (LinkStep.ok.injEq _ _).mp h2
    subst hpay
    rw [← hgl]
    simp [linksFrom]

/-- Claim C7 witness: the bare handle `elonmusk` yields the stored link
`https://twitter.com/elonmusk`. -/
theorem bare_handle_link_witness :
    jsStartsWith "elonmusk" "http" = false ∧
    ("elonmusk" : String) ≠ "no" ∧
    resolveLinkStep .twitter "elonmusk"
      = .ok (some ("https://twitter.com/" ++ "elonmusk")) :=
  ⟨by decide, by decide,
    ((bare_handle_link { envOk with twitterInput := "elonmusk" }).1
      (by decide) (by decide)).1⟩

/-- Claim C8: when the insert fails or returns no row, the flow replies with
the generic error as its last message and exits by throwing
(`ExitKind.fatal`): nothing is persisted, `projectRecord` and
`activeProjectRecord` keep their prior values, and the insert is attempted
at most once (no retry). -/
theorem insert_failure_fatal (env : Env) (h : env.insertRow = none) :
    (runCreateProject env).persisted = none ∧
    (runCreateProject env).projectRecord = env.initProjectRecord ∧
    (runCreateProject env).activeProjectRecord = env.initActiveProject ∧
    (runCreateProject env).insertPayloads.length ≤ 1 ∧
    ((runCreateProject env).insertPayloads ≠ [] →
      (runCreateProject env).exit = .fatal ∧
      (runCreateProject env).replies.getLast? = some insertErrorReply) := by
  rcases h1 : resolveLinkStep .twitter env.twitterInput with tl | _
  case invalid => simp [runCreateProject, h1]
  rcases h2 : resolveLinkStep .github env.githubInput with gl | _
  case invalid => simp [runCreateProject, h1, h2]
  rcases h3 : env.photo with _ | sizes
  case none => simp [runCreateProject, h1, h2, h3]
  rcases h4 : (tryUpload env sizes).imageData with _ | imageUrl
  · simp [runCreateProject, h1, h2, h3, h4]
  · simp [runCreateProject, h1, h2, h3, h4, h]

/-- Claim C8 witness: the concrete run whose insert returns no row ends
fatal, with the generic error as the last reply and untouched maps. -/
theorem insert_failure_fatal_witness :
    { envOk with insertRow := none }.insertRow = none ∧
    (runCreateProject { envOk with insertRow := none }).persisted = none ∧
    (runCreateProject { envOk with insertRow := none }).exit = .fatal ∧
    (runCreateProject { envOk with insertRow := none }).replies.getLast?
      = some insertErrorReply :=
  ⟨rfl,
    (insert_failure_fatal { envOk with insertRow := none } rfl).1,
    ((insert_failure_fatal { envOk with insertRow := none } rfl).2.2.2.2
      (by decide)).1,
    ((insert_failure_fatal { envOk with insertRow := none } rfl).2.2.2.2
      (by decide)).2⟩

/-- Claim C10: the `"no"` comparison runs on the extracted handle, not just
the raw input: an `http`-prefixed URL whose extracted handle is `"no"`
yields a `null` link, and a platform with a `null` link is absent from the
assembled links. -/
theorem extracted_no_skips_link (input : String) :
    (jsStartsWith input "http" = true →
      extractUsernameFromUrl input .twitter = some "no" →
      resolveLinkStep .twitter input = .ok none) ∧
    (jsStartsWith input "http" = true →
      extractUsernameFromUrl input .github = some "no" →
      resolveLinkStep .github input = .ok none) ∧
    (∀ gl : Option String, ∀ l ∈ linksFrom none gl, l.title ≠ "Twitter") ∧
    (∀ tl : Option String, ∀ l ∈ linksFrom tl none, l.title ≠ "GitHub") := by
  refine ⟨?_, ?_, ?_, ?_⟩
  · intro hh he
    unfold resolveLinkStep
    simp [hh, he]
  · intro hh he
    unfold resolveLinkStep
    simp [hh, he]
  · intro gl l hl
    rcases gl with _ | u <;> simp [linksFrom] at hl <;> simp [hl]
  · intro tl l hl
    rcases tl with _ | u <;> simp [linksFrom] at hl <;> simp [hl]

/-- Claim C10 witness: `https://twitter.com/no` is not the literal `"no"`,
yet its extracted handle is `"no"` and the stored Twitter link is `null`. -/
theorem extracted_no_skips_link_witness :
    ("https://twitter.com/no" : String) ≠ "no" ∧
    extractUsernameFromUrl "https://twitter.com/no" .twitter = some "no" ∧
    resolveLinkStep .twitter "https://twitter.com/no" = .ok none ∧
    resolveLinkStep .github "https://github.com/no" = .ok none :=
  ⟨by decide, by decide,
    (extracted_no_skips_link "https://twitter.com/no").1 (by decide) (by decide),
    (extracted_no_skips_link "https://github.com/no").2.1 (by decide) (by decide)⟩

/-- Claim C1: under the conversational engine's guarantee that text answers
are non-empty, an insert is attempted only after every prior step succeeded
(valid-or-skipped links, a photo, and a try block that completed the
upload), a record is persisted only through such an attempt, and every run
that persists nothing leaves `projectRecord` and `activeProjectRecord` at
their prior values. -/
theorem persist_requires_all_steps (env : Env)
    (hname : env.projectName ≠ "") (hdesc : env.projectDescription ≠ "") :
    ((runCreateProject env).insertPayloads ≠ [] →
      env.projectName ≠ "" ∧ env.projectDescription ≠ "" ∧
      resolveLinkStep .twitter env.twitterInput ≠ .invalid ∧
      resolveLinkStep .github env.githubInput ≠ .invalid ∧
      ∃ sizes, env.photo = some sizes ∧
        ((tryUpload env sizes).imageData).isSome = true) ∧
    ((runCreateProject env).persisted.isSome = true →
      (runCreateProject env).insertPayloads ≠ []) ∧
    ((runCreateProject env).persisted = none →
      (runCreateProject env).projectRecord = env.initProjectRecord ∧
      (runCreateProject env).activeProjectRecord = env.initActiveProject) := by
  rcases h1 : resolveLinkStep .twitter env.twitterInput with tl | _
  case invalid => simp [runCreateProject, h1]
  rcases h2 : resolveLinkStep .github env.githubInput with gl | _
  case invalid => simp [runCreateProject, h1, h2]
  rcases h3 : env.photo with _ | sizes
  case none => simp [runCreateProject, h1, h2, h3]
  rcases h4 : (tryUpload env sizes).imageData with _ | imageUrl
  · simp [runCreateProject, h1, h2, h3, h4]
  · rcases h5 : env.insertRow with _ | row <;>
      simp [runCreateProject, h1, h2, h3, h4, h5, hname, hdesc]

/-- Claim C1 witness: the successful concrete run persists its record, so
an insert was indeed attempted there. -/
theorem persist_requires_all_steps_witness :
    envOk.projectName ≠ "" ∧ envOk.projectDescription ≠ "" ∧
    ((runCreateProject envOk).persisted.isSome = true →
      (runCreateProject envOk).insertPayloads ≠ []) :=
  ⟨by decide, by decide,
    (persist_requires_all_steps envOk (by decide) (by decide)).2.1⟩

/-- Claim C2: when the try block of the image intake throws (so `imageData`
is never set), the catch handler logs the error and leaves the error edit on
the status message, yet the flow goes on and dereferences the undefined
upload result: the run ends in a `TypeError` crash, with no insert attempt
and nothing persisted. -/
theorem upload_failure_falls_through (env : Env) (sizes : List String)
    (tl gl : Option String)
    (h1 : resolveLinkStep .twitter env.twitterInput = .ok tl)
    (h2 : resolveLinkStep .github env.githubInput = .ok gl)
    (h3 : env.photo = some sizes)
    (h4 : (tryUpload env sizes).imageData = none) :
    (runCreateProject env).errorLogged = true ∧
    (runCreateProject env).statusEdits = [uploadErrorEdit, celebrateEdit] ∧
    (runCreateProject env).exit = .crash ∧
    (runCreateProject env).insertPayloads = [] ∧
    (runCreateProject env).persisted = none := by
  have hf := tryUpload_failed env sizes h4
  simp [runCreateProject, h1, h2, h3, h4, hf.1, hf.2]

/-- Claim C2 witness: the concrete run whose storage upload is rejected
crashes after the catch, with the error edit recorded and no insert. -/
theorem upload_failure_falls_through_witness :
    { envOk with upload := .error () }.photo = some ["small", "large"] ∧
    (tryUpload { envOk with upload := .error () } ["small", "large"]).imageData
      = none ∧
    (runCreateProject { envOk with upload := .error () }).exit = .crash ∧
    (runCreateProject { envOk with upload := .error () }).statusEdits
      = [uploadErrorEdit, celebrateEdit] ∧
    (runCreateProject { envOk with upload := .error () }).insertPayloads = [] :=
  ⟨rfl, by decide,
    (upload_failure_falls_through { envOk with upload := .error () }
      ["small", "large"] none (some "https://github.com/acme-oss")
      (by decide) (by decide) rfl (by decide)).2.2.1,
    (upload_failure_falls_through { envOk with upload := .error () }
      ["small", "large"] none (some "https://github.com/acme-oss")
      (by decide) (by decide) rfl (by decide)).2.1,
    (upload_failure_falls_through { envOk with upload := .error () }
      ["small", "large"] none (some "https://github.com/acme-oss")
      (by decide) (by decide) rfl (by decide)).2.2.2.1⟩

/-- Claim C9: once the try/catch of the image intake completes, the status
message is unconditionally edited to the `🎉` success text — after whatever
the try/catch left there — and when the upload failed this success edit
overwrites the error edit right before the flow crashes on the undefined
upload result. -/
theorem celebrate_edit_unconditional (env : Env) (sizes : List String)
    (tl gl : Option String)
    (h1 : resolveLinkStep .twitter env.twitterInput = .ok tl)
    (h2 : resolveLinkStep .github env.githubInput = .ok gl)
    (h3 : env.photo = some sizes) :
    (∃ rest, (runCreateProject env).statusEdits
        = (tryUpload env sizes).edits ++ celebrateEdit :: rest) ∧
    ((tryUpload env sizes).imageData = none →
      (runCreateProject env).statusEdits = [uploadErrorEdit, celebrateEdit] ∧
      (runCreateProject env).exit = .crash) := by
  constructor
  · rcases h4 : (tryUpload env sizes).imageData with _ | imageUrl
    · exact ⟨[], by simp [runCreateProject, h1, h2, h3, h4]⟩
    · rcases h5 : env.insertRow with _ | row
      · exact ⟨[creatingEdit], by simp [runCreateProject, h1, h2, h3, h4, h5]⟩
      · exact ⟨[creatingEdit, finalEdit env.slug],
          by simp [runCreateProject, h1, h2, h3, h4, h5]⟩
  · intro h4
    have hf := tryUpload_failed env sizes h4
    simp [runCreateProject, h1, h2, h3, h4, hf.1]

/-- Claim C9 witness: in the successful concrete run the status edits are
the try block's success edit followed by the unconditional `🎉` edit. -/
theorem celebrate_edit_unconditional_witness :
    envOk.photo = some ["small", "large"] ∧
    ∃ rest, (runCreateProject envOk).statusEdits
      = (tryUpload envOk ["small", "large"]).edits ++ celebrateEdit :: rest :=
  ⟨rfl,
    (celebrate_edit_unconditional envOk ["small", "large"] none
      (some "https://github.com/acme-oss") (by decide) (by decide) rfl).1⟩

/-- Claim C3 counterexample: the well-formed protocol-less profile URL
`twitter.com/elonmusk` extracts to `elonmusk`, yet the flow stores
`https://twitter.com/twitter.com/elonmusk` — not
`https://twitter.com/elonmusk` as the claim requires. -/
theorem twitter_url_link_counterexample :
    extractUsernameFromUrl "twitter.com/elonmusk" .twitter = some "elonmusk" ∧
    resolveLinkStep .twitter "twitter.com/elonmusk"
      = .ok (some "https://twitter.com/twitter.com/elonmusk") ∧
    ("https://twitter.com/twitter.com/elonmusk" : String)
      ≠ "https://twitter.com/elonmusk" :=
  ⟨by decide, by decide, by decide⟩

/-- Claim C3 (amended): `extractUsernameFromUrl` returns exactly the handle
for every protocol/`www.` variant of a well-formed Twitter profile URL, but
the stored link equals `https://twitter.com/<handle>` only when the input
carries an `http`/`https` protocol prefix (only then does the flow extract
at all) and the handle is not `"no"`. -/
theorem twitter_url_extraction_amended (proto www handle : List Char)
    (hw : www = wwwChars ∨ www = [])
    (hne : handle ≠ [])
    (hchars : ∀ c ∈ handle, isHandleChar .twitter c = true)
    (hno : handle ≠ ['n', 'o']) :
    (proto = httpsChars ∨ proto = httpChars ∨ proto = [] →
      extractUsernameFromUrl
        (String.mk (proto ++ (www ++ (domainChars .twitter ++ handle)))) .twitter
        = some (String.mk handle)) ∧
    (proto = httpsChars ∨ proto = httpChars →
      resolveLinkStep .twitter
        (String.mk (proto ++ (www ++ (domainChars .twitter ++ handle))))
        = .ok (some ("https://twitter.com/" ++ String.mk handle))) := by
  constructor
  · intro hp
    exact extractUsernameFromUrl_exact .twitter proto www handle hp hw hne hchars
  · intro hp
    have hex := extractUsernameFromUrl_exact .twitter proto www handle
      (hp.imp id Or.inl) hw hne hchars
    have hhttp : jsStartsWith
        (String.mk (proto ++ (www ++ (domainChars .twitter ++ handle))))
        "http" = true := by
      rcases hp with rfl | rfl <;> rfl
    have hnostr : String.mk handle ≠ "no" :=
      fun h => hno (congrArg String.data h)
    unfold resolveLinkStep
    simp [hhttp, hex, hnostr, platformBase]

/-- Claim C3 amended witness: `https://www.twitter.com/elonmusk` extracts
to `elonmusk` and stores `https://twitter.com/elonmusk`. -/
theorem twitter_url_extraction_amended_witness :
    (['e', 'l', 'o', 'n', 'm', 'u', 's', 'k'] : List Char) ≠ [] ∧
    (∀ c ∈ (['e', 'l', 'o', 'n', 'm', 'u', 's', 'k'] : List Char),
      isHandleChar .twitter c = true) ∧
    resolveLinkStep .twitter
      (String.mk (httpsChars ++ (wwwChars ++ (domainChars .twitter ++
        ['e', 'l', 'o', 'n', 'm', 'u', 's', 'k']))))
      = .ok (some ("https://twitter.com/"
          ++ String.mk ['e', 'l', 'o', 'n', 'm', 'u', 's', 'k'])) :=
  ⟨by decide, by decide,
    (twitter_url_extraction_amended httpsChars wwwChars
      ['e', 'l', 'o', 'n', 'm', 'u', 's', 'k']
      (Or.inl rfl) (by decide) (by decide) (by decide)).2 (Or.inl rfl)⟩

/-- Claim C4 counterexample: for the dot-less resolved path `file` the code
keeps the whole path as the extension instead of defaulting to `jpg`: the
upload call of the concrete run targets `acme.file`, not `acme.jpg`. -/
theorem upload_filename_counterexample :
    fileExtension "file" = "file" ∧
    (runCreateProject { envOk with getFile := .ok (some "file") }).uploadCall
      = some ⟨"acme.file", "image/jpeg", true⟩ ∧
    ("acme.file" : String) ≠ "acme.jpg" :=
  ⟨by decide, by decide, by decide⟩

/-- Claim C4 (amended): the upload call targets `{slug}.{extension}` with
the content type looked up from the extension (default `image/jpeg`), where
the extension is the last dot-separated segment of the file path: the part
after the last dot when one exists, the whole path when the path has no
dot, and the `jpg` default exactly when that segment is empty (a path
ending in a dot). -/
theorem upload_filename_amended (env : Env) (sizes : List String)
    (tl gl : Option String) (imageId fp : String)
    (h1 : resolveLinkStep .twitter env.twitterInput = .ok tl)
    (h2 : resolveLinkStep .github env.githubInput = .ok gl)
    (h3 : env.photo = some sizes)
    (hid : sizes.getLast? = some imageId)
    (h5 : env.getFile = .ok (some fp))
    (h6 : env.fetchOk = true)
    (h7 : fp ≠ "") :
    (runCreateProject env).uploadCall
      = some ⟨env.slug ++ "." ++ fileExtension fp,
              contentType env.mimeLookup (fileExtension fp), true⟩ ∧
    (∀ a b : List Char, '.' ∉ b → b ≠ [] →
      fileExtension (String.mk (a ++ '.' :: b)) = String.mk b) ∧
    (∀ l : List Char, '.' ∉ l → l ≠ [] →
      fileExtension (String.mk l) = String.mk l) ∧
    (∀ a : List Char, fileExtension (String.mk (a ++ ['.'])) = "jpg") ∧
    (∀ e : String, env.mimeLookup e = none →
      contentType env.mimeLookup e = "image/jpeg") := by
  refine ⟨?_, fileExtension_after_last_dot, fileExtension_no_dot,
    fileExtension_trailing_dot, ?_⟩
  · rw [runCreateProject_uploadCall env sizes tl gl h1 h2 h3]
    exact tryUpload_call env sizes imageId fp hid h5 h6 h7
  · intro e he
    simp [contentType, he]

/-- Claim C4 amended witness: the successful concrete run uploads
`acme.jpg` with content type `image/jpeg`. -/
theorem upload_filename_amended_witness :
    (["small", "large"] : List String).getLast? = some "large" ∧
    envOk.getFile = .ok (some "photos/file_1.jpg") ∧
    ("photos/file_1.jpg" : String) ≠ "" ∧
    (runCreateProject envOk).uploadCall
      = some ⟨"acme.jpg", "image/jpeg", true⟩ :=
  ⟨by decide, rfl, by decide,
    (upload_filename_amended envOk ["small", "large"] none
      (some "https://github.com/acme-oss") "large" "photos/file_1.jpg"
      (by decide) (by decide) rfl (by decide) rfl rfl (by decide)).1⟩

end GmonLink
